import Mathlib

/-!
Verification of the screen-space star-tracking subsystem (modules
`star_track.c` and `pointer.c` of stellarium-web-engine).

Doubles are modelled as exact rationals; the external astronomy and
projection services (`obj_get_pvo`, `convert_frame`, `eraC2s`,
`project_to_win`, `observer_update`) are abstract parameters collected in
an `Env` record, so every theorem quantifies over their behaviour.
-/

set_option maxRecDepth 10000

namespace Stellarium

/-- C truncation toward zero (the behaviour of a C cast to `int`). -/
def ctrunc (x : ℚ) : ℤ := if 0 ≤ x then ⌊x⌋ else ⌈x⌉

/-- C `fmod`: remainder with the sign of the dividend, `x - y*trunc(x/y)`. -/
def cfmod (x y : ℚ) : ℚ := x - y * (ctrunc (x / y) : ℚ)

/-- The fields of `observer_t` that the tracked modules read directly:
`utc` (wall-clock, fractional days) and `tt` (terrestrial time, days). -/
structure Observer where
  utc : ℚ
  tt : ℚ
deriving DecidableEq

/-- External services used by `star_track.c`, abstracted: the ephemeris and
frame-conversion chain, the projection, and the window size. -/
structure Env (Obj : Type) where
  /-- Models `obj_get_pvo` + `convert_frame(ICRF→OBSERVED)` + `eraC2s` as run
  on the time-shifted observer: returns (azimuth, altitude). -/
  getAzalt : Obj → Observer → ℚ × ℚ
  /-- Models `azalt_to_view` (eraS2c + OBSERVED→ICRF→VIEW conversions). -/
  azaltToView : Observer → ℚ → ℚ → ℚ × ℚ × ℚ
  /-- Models `project_to_win`: `none` when the projection fails. -/
  projectToWin : ℚ × ℚ × ℚ → Option (ℚ × ℚ)
  /-- Models the `obj_get_pvo` + ICRF→VIEW chain for the current marker. -/
  currentView : Obj → Observer → ℚ × ℚ × ℚ
  /-- Models `core->win_size`. -/
  winSize : ℚ × ℚ

/-- The cached path data of `star_track_t`; a `none` array models a freed
(`NULL`) pointer. -/
structure Cache where
  nb_points : ℕ
  path_azalt : Option (List (ℚ × ℚ))
  hours : Option (List ℚ)
deriving DecidableEq

/-- The `star_track_t` module state. -/
structure StarTrack where
  visible : Bool
  cache : Cache
deriving DecidableEq

/-- Models `star_track_init`. -/
def star_track_init : StarTrack :=
  { visible := false
  , cache := { nb_points := 0, path_azalt := none, hours := none } }

/-- Models `star_track_del`: both cache arrays are freed. -/
def star_track_del (t : StarTrack) : StarTrack :=
  { t with cache := { t.cache with path_azalt := none, hours := none } }

/-- PATH_POINTS constant: one point every 10 minutes. -/
def PATH_POINTS : ℕ := 144

/-- HOURS_PER_DAY constant. -/
def HOURS_PER_DAY : ℚ := 24

/-- Models `compute_azalt_at_time`: copies the observer, shifts `tt` by
`hours_offset/24` days, and queries the (abstracted) ephemeris chain. -/
def compute_azalt_at_time {Obj : Type} (env : Env Obj) (selection : Obj)
    (obs_base : Observer) (hours_offset : ℚ) : ℚ × ℚ :=
  env.getAzalt selection { obs_base with tt := obs_base.tt + hours_offset / 24 }

/-- The decimal current hour: `fmod(obs->utc, 1.0) * 24.0`. -/
def current_hour_of (obs : Observer) : ℚ := cfmod obs.utc 1 * 24

/-- The fixed clock hour of sample `i`: `(double)i * (HOURS_PER_DAY / PATH_POINTS)`. -/
def clock_hour (i : ℕ) : ℚ := (i : ℚ) * (HOURS_PER_DAY / (PATH_POINTS : ℚ))

/-- The hours offset passed to the sampler for sample `i`:
`clock_hour - current_hour`. -/
def hours_offset_of (obs : Observer) (i : ℕ) : ℚ :=
  clock_hour i - current_hour_of obs

/-- The azimuth/altitude stored for sample `i` by the refresh loop. -/
def sample_azalt {Obj : Type} (env : Env Obj) (sel : Obj) (obs : Observer)
    (i : ℕ) : ℚ × ℚ :=
  compute_azalt_at_time env sel obs (hours_offset_of obs i)

/-- Models `update_path_cache`: (re)allocates the arrays when the stored
count differs from PATH_POINTS, then overwrites every entry with the fixed
clock-hour anchor and the freshly sampled az/alt; either way the resulting
arrays hold exactly these values. -/
def update_path_cache {Obj : Type} (env : Env Obj) (t : StarTrack)
    (selection : Obj) (obs : Observer) : StarTrack :=
  { t with cache :=
    { nb_points := PATH_POINTS
    , hours := some ((List.range PATH_POINTS).map clock_hour)
    , path_azalt :=
        some ((List.range PATH_POINTS).map (sample_azalt env selection obs)) } }

/-- A drawing primitive emitted by `star_track_render`, recording the screen
positions handed to the paint calls. -/
inductive DrawCmd where
  | segment (p1 p2 : ℚ × ℚ) (above : Bool)
  | dot (pos : ℚ × ℚ) (radius : ℚ)
  | timeLabel (pos : ℚ × ℚ) (hour : ℤ)
  | marker (pos : ℚ × ℚ)
deriving DecidableEq

/-- The screen projection of cached sample `i`:
`project_to_win(proj, azalt_to_view(az_i, alt_i))`. -/
def sample_win {Obj : Type} (env : Env Obj) (sel : Obj) (obs : Observer)
    (i : ℕ) : Option (ℚ × ℚ) :=
  env.projectToWin (env.azaltToView obs (sample_azalt env sel obs i).1
    (sample_azalt env sel obs i).2)

/-- One iteration of the segment loop of `star_track_render`: project both
endpoints, skip on either projection failure, skip when the squared screen
distance exceeds `win_size[0]^2 / 4`, otherwise emit the segment with its
above-horizon flag. -/
def segment_cmd {Obj : Type} (env : Env Obj) (sel : Obj) (obs : Observer)
    (i : ℕ) : Option DrawCmd :=
  let next := (i + 1) % PATH_POINTS
  let alt1 := (sample_azalt env sel obs i).2
  let alt2 := (sample_azalt env sel obs next).2
  match sample_win env sel obs i, sample_win env sel obs next with
  | some p1, some p2 =>
      if (p2.1 - p1.1) * (p2.1 - p1.1) + (p2.2 - p1.2) * (p2.2 - p1.2) >
          env.winSize.1 * env.winSize.1 / 4 then none
      else some (.segment p1 p2 (decide (alt1 > 0) || decide (alt2 > 0)))
  | _, _ => none

/-- The hour-mark test of the dot loop: `hour_frac < 0.1 || hour_frac > 0.9`
with `hour_frac = hour - floor(hour)`. -/
def code_is_hour (hour : ℚ) : Bool :=
  decide (hour - (⌊hour⌋ : ℚ) < 1/10) || decide (hour - (⌊hour⌋ : ℚ) > 9/10)

/-- The rounded hour used for labels: `(int)(hour + 0.5) % 24` with C
truncation and C `%`. -/
def rounded_hour (hour : ℚ) : ℤ := Int.tmod (ctrunc (hour + 1/2)) 24

/-- One iteration of the dot/label loop of `star_track_render`: skip unless
near an hour mark, skip on projection failure, skip when the window position
leaves `[0,w]×[0,h]`, then draw the dot and, at even rounded hours, the time
label at the same window position. -/
def dot_cmds {Obj : Type} (env : Env Obj) (sel : Obj) (obs : Observer)
    (i : ℕ) : List DrawCmd :=
  let hour := clock_hour i
  if code_is_hour hour then
    match sample_win env sel obs i with
    | none => []
    | some w =>
        if w.1 < 0 ∨ w.1 > env.winSize.1 ∨ w.2 < 0 ∨ w.2 > env.winSize.2
        then []
        else
          .dot w 3 ::
            (if Int.tmod (rounded_hour hour) 2 = 0
             then [.timeLabel w (rounded_hour hour)] else [])
  else []

/-- The current-position block of `star_track_render`: draw the marker only
when `project_to_win` succeeds on the current view position. -/
def marker_cmds {Obj : Type} (env : Env Obj) (sel : Obj) (obs : Observer) :
    List DrawCmd :=
  match env.projectToWin (env.currentView sel obs) with
  | some p => [.marker p]
  | none => []

/-- Models `star_track_render`: early-out when invisible or without a
selection, refresh the cache, then emit the path segments, the hourly
dots/labels and the current marker. -/
def star_track_render {Obj : Type} (env : Env Obj) (t : StarTrack)
    (selection : Option Obj) (obs : Observer) : StarTrack × List DrawCmd :=
  if ¬ t.visible then (t, [])
  else
    match selection with
    | none => (t, [])
    | some sel =>
        let t2 := update_path_cache env t sel obs
        if t2.cache.nb_points < 2 then (t2, [])
        else
          (t2, ((List.range PATH_POINTS).filterMap (segment_cmd env sel obs))
            ++ ((List.range PATH_POINTS).flatMap (dot_cmds env sel obs))
            ++ marker_cmds env sel obs)

/-- Models `is_on_screen` of `pointer.c`. -/
def is_on_screen (x y w h margin : ℚ) : Bool :=
  decide (x ≥ margin) && decide (x ≤ w - margin) &&
  decide (y ≥ margin) && decide (y ≤ h - margin)

/-- A drawing outcome of `pointer_render`. -/
inductive PointerCmd where
  | arrow (center : ℚ × ℚ) (angle : ℚ)
  | highlight (pos : ℚ × ℚ)
  | strokes (pos : ℚ × ℚ)
deriving DecidableEq

/-- Models `pointer_render` at the granularity the claims need: the early
outs, the gyroscope off-screen arrow with its direction angle, the on-screen
gyroscope highlight, and the standard four-stroke pointer. `atan2` is kept
abstract (a parameter), `win_pos` is the position `obj_get_2d_ellipse`
reported for the selection. -/
def pointer_render {Obj : Type} (atan2 : ℚ → ℚ → ℚ) (visible gyro : Bool)
    (selection : Option Obj) (win_pos : ℚ × ℚ) (w h : ℚ) : List PointerCmd :=
  if ¬ visible then []
  else
    match selection with
    | none => []
    | some _ =>
        if gyro then
          let cx := w / 2
          let cy := h / 2
          if ¬ (is_on_screen win_pos.1 win_pos.2 w h 50) then
            let dx := win_pos.1 - cx
            let dy := win_pos.2 - cy
            [.arrow (cx, cy) (atan2 dx (-dy))]
          else [.highlight win_pos]
        else [.strokes win_pos]

/-- The screen-relative direction policy exactly as the spec words it:
`angle = atan2(screenPos.x - centerX, -(screenPos.y - centerY))`. -/
def spec_screen_relative_angle (atan2 : ℚ → ℚ → ℚ)
    (screenPos center : ℚ × ℚ) : ℚ :=
  atan2 (screenPos.1 - center.1) (-(screenPos.2 - center.2))

/-- The label condition exactly as the spec words it: the clock-hour is
within ±6% of the sampling interval (24/N hours) of an integer hour, and the
rounded hour is even. -/
def spec_label_cond (hour : ℚ) : Prop :=
  |hour - (round hour : ℚ)| ≤ (6/100) * (HOURS_PER_DAY / (PATH_POINTS : ℚ)) ∧
    round hour % 2 = 0

instance (hour : ℚ) : Decidable (spec_label_cond hour) := by
  unfold spec_label_cond; infer_instance

/-- The in-viewport test of the dot/label loop, as a predicate on the window
position (negation of the skip condition). -/
def in_viewport {Obj : Type} (env : Env Obj) (p : ℚ × ℚ) : Prop :=
  0 ≤ p.1 ∧ p.1 ≤ env.winSize.1 ∧ 0 ≤ p.2 ∧ p.2 ≤ env.winSize.2

instance {Obj : Type} (env : Env Obj) (p : ℚ × ℚ) :
    Decidable (in_viewport env p) := by
  unfold in_viewport
  infer_instance

/-- A concrete environment used for witnesses: the ephemeris chain returns a
fixed direction and the projection always succeeds at the origin. -/
def env0 : Env ℕ :=
  { getAzalt := fun _ _ => (0, 0)
  , azaltToView := fun _ az alt => (az, alt, 0)
  , projectToWin := fun v => some (v.1, v.2.1)
  , currentView := fun _ _ => (0, 0, 0)
  , winSize := (100, 100) }

/-- A concrete environment whose projection always fails. -/
def envFail : Env ℕ :=
  { env0 with projectToWin := fun _ => none }

/-- A concrete observer with `utc` fractional part 1/2. -/
def obs0 : Observer := { utc := 1/2, tt := 0 }

/-- A concrete visible tracker state with an unallocated cache. -/
def track0 : StarTrack := { visible := true, cache := star_track_init.cache }

/-! ### Helper lemmas -/

theorem hours_getD {Obj : Type} (env : Env Obj) (t : StarTrack) (sel : Obj)
    (obs : Observer) (i : ℕ) (hi : i < PATH_POINTS) :
    ((update_path_cache env t sel obs).cache.hours.getD []).getD i 0 =
      clock_hour i := by
  simp [update_path_cache, List.getD_eq_getElem?_getD, List.getElem?_map,
    List.getElem?_range, hi]

theorem clock_hour_eq (i : ℕ) :
    clock_hour i = (i : ℚ) * (24 / (PATH_POINTS : ℚ)) := rfl

/-! ### C1 -/

/-- C1: after `update_path_cache` the cache holds exactly PATH_POINTS
samples, the stored clock-hour anchor at index `i` equals `i * 24/N` for
every `i < N`, and the anchors are independent of the observer time. -/
theorem c1_refresh_anchor_stability {Obj : Type} (env : Env Obj)
    (t : StarTrack) (sel : Obj) (obs obs2 : Observer) :
    ((update_path_cache env t sel obs).cache.hours.getD []).length =
        PATH_POINTS ∧
    ((update_path_cache env t sel obs).cache.path_azalt.getD []).length =
        PATH_POINTS ∧
    (update_path_cache env t sel obs).cache.nb_points = PATH_POINTS ∧
    (∀ i : ℕ, i < PATH_POINTS →
      ((update_path_cache env t sel obs).cache.hours.getD []).getD i 0 =
        (i : ℚ) * (24 / (PATH_POINTS : ℚ))) ∧
    (update_path_cache env t sel obs).cache.hours =
      (update_path_cache env t sel obs2).cache.hours := by
  refine ⟨by simp [update_path_cache], by simp [update_path_cache], rfl,
    fun i hi => ?_, rfl⟩
  rw [hours_getD env t sel obs i hi, clock_hour_eq]

/-- Witness for C1 at a concrete environment, observer and index. -/
theorem c1_refresh_anchor_stability_witness :
    ((update_path_cache env0 track0 0 obs0).cache.hours.getD []).getD 7 0 =
      (7 : ℚ) * (24 / (PATH_POINTS : ℚ)) :=
  (c1_refresh_anchor_stability env0 track0 0 obs0 obs0).2.2.2.1 7
    (by norm_num [PATH_POINTS])

/-! ### C6 -/

/-- C6: `is_on_screen` holds iff `m ≤ x ≤ w-m` and `m ≤ y ≤ h-m`; the
boundary points `(m,m)` and `(w-m,h-m)` are on-screen, and any point with
`x = m-1` is off-screen. -/
theorem c6_is_on_screen_iff (x y w h m : ℚ) :
    (is_on_screen x y w h m = true ↔
      (m ≤ x ∧ x ≤ w - m) ∧ (m ≤ y ∧ y ≤ h - m)) ∧
    (m ≤ w - m → m ≤ h - m →
      is_on_screen m m w h m = true ∧
      is_on_screen (w - m) (h - m) w h m = true) ∧
    is_on_screen (m - 1) y w h m = false := by
  have hlt : ¬ ((m : ℚ) - 1 ≥ m) := by linarith
  refine ⟨?_, fun h1 h2 => ⟨?_, ?_⟩, ?_⟩ <;>
    simp [is_on_screen, and_assoc, hlt] <;> constructor <;> linarith

/-- Witness for C6: boundary points for margin 10 in a 100×80 viewport. -/
theorem c6_is_on_screen_iff_witness :
    is_on_screen 10 10 100 80 10 = true ∧
    is_on_screen (100 - 10) (80 - 10) 100 80 10 = true :=
  (c6_is_on_screen_iff 0 0 100 80 10).2.1 (by norm_num) (by norm_num)

/-! ### C7 -/

/-- C7: in gyroscope mode with the selection off-screen by the 50-unit
margin, the direction arrow is drawn at the viewport center with exactly the
screen-relative angle `atan2(screenPos.x - centerX, -(screenPos.y - centerY))`
of the spec. -/
theorem c7_gyro_offscreen_angle {Obj : Type} (atan2 : ℚ → ℚ → ℚ) (sel : Obj)
    (win_pos : ℚ × ℚ) (w h : ℚ)
    (hoff : is_on_screen win_pos.1 win_pos.2 w h 50 = false) :
    pointer_render atan2 true true (some sel) win_pos w h =
      [PointerCmd.arrow (w / 2, h / 2)
        (spec_screen_relative_angle atan2 win_pos (w / 2, h / 2))] := by
  simp [pointer_render, hoff, spec_screen_relative_angle]

/-- Witness for C7 at a concrete off-screen position. -/
theorem c7_gyro_offscreen_angle_witness :
    pointer_render (fun a b => a + 2 * b) true true (some (0 : ℕ))
        (1000, 700) 200 200 =
      [PointerCmd.arrow (200 / 2, 200 / 2)
        (spec_screen_relative_angle (fun a b => a + 2 * b) (1000, 700)
          (200 / 2, 200 / 2))] :=
  c7_gyro_offscreen_angle (fun a b => a + 2 * b) 0 (1000, 700) 200 200
    (by with_unfolding_all decide)

/-! ### C8 -/

/-- C8: for an observer whose `utc` has fractional part exactly 1/2, the
refresh stores `clockHour = 12` at index 72 and passes `hoursOffset = 0` to
the sampler there. -/
theorem c8_noon_sample {Obj : Type} (env : Env Obj) (t : StarTrack)
    (sel : Obj) (obs : Observer) (k : ℤ) (hk : 0 ≤ k)
    (hutc : obs.utc = (k : ℚ) + 1/2) :
    ((update_path_cache env t sel obs).cache.hours.getD []).getD 72 0 = 12 ∧
    hours_offset_of obs 72 = 0 := by
  have h12 : clock_hour 72 = 12 := by
    rw [clock_hour_eq]; norm_num [PATH_POINTS]
  have hcur : current_hour_of obs = 12 := by
    have h0 : (0 : ℚ) ≤ obs.utc := by rw [hutc]; positivity
    have htr : ctrunc (obs.utc / 1) = k := by
      rw [div_one, ctrunc, if_pos h0, hutc, add_comm, Int.floor_add_int]
      norm_num
    rw [current_hour_of, cfmod, htr, hutc]
    ring
  constructor
  · rw [hours_getD env t sel obs 72 (by norm_num [PATH_POINTS]), h12]
  · rw [hours_offset_of, h12, hcur]; ring

/-- Witness for C8 at the concrete observer `obs0` (utc = 1/2). -/
theorem c8_noon_sample_witness :
    ((update_path_cache env0 track0 0 obs0).cache.hours.getD []).getD 72 0 =
        12 ∧
    hours_offset_of obs0 72 = 0 :=
  c8_noon_sample env0 track0 0 obs0 0 le_rfl (by norm_num [obs0])

/-! ### C9 -/

/-- C9: `update_path_cache` is idempotent — refreshing twice with the same
object and the same observer snapshot yields the identical state, and the
resulting cache does not depend on the prior cache contents at all. -/
theorem c9_refresh_idempotent {Obj : Type} (env : Env Obj) (sel : Obj)
    (obs : Observer) (t t2 : StarTrack) :
    update_path_cache env (update_path_cache env t sel obs) sel obs =
      update_path_cache env t sel obs ∧
    (update_path_cache env t sel obs).cache =
      (update_path_cache env t2 sel obs).cache := ⟨rfl, rfl⟩

/-! ### Render analysis helpers -/

theorem render_not_visible {Obj : Type} (env : Env Obj) (t : StarTrack)
    (sel : Option Obj) (obs : Observer) (h : t.visible = false) :
    star_track_render env t sel obs = (t, []) := by
  simp [star_track_render, h]

theorem render_no_selection {Obj : Type} (env : Env Obj) (t : StarTrack)
    (obs : Observer) : star_track_render env t none obs = (t, []) := by
  cases h : t.visible <;> simp [star_track_render, h]

theorem render_cmds_eq {Obj : Type} (env : Env Obj) (t : StarTrack)
    (sel : Obj) (obs : Observer) (ht : t.visible = true) :
    (star_track_render env t (some sel) obs).2 =
      ((List.range PATH_POINTS).filterMap (segment_cmd env sel obs))
        ++ ((List.range PATH_POINTS).flatMap (dot_cmds env sel obs))
        ++ marker_cmds env sel obs := by
  simp [star_track_render, ht, update_path_cache, PATH_POINTS]

theorem segment_cmd_some_inv {Obj : Type} (env : Env Obj) (sel : Obj)
    (obs : Observer) (i : ℕ) (c : DrawCmd)
    (h : segment_cmd env sel obs i = some c) :
    ∃ p1 p2,
      sample_win env sel obs i = some p1 ∧
      sample_win env sel obs ((i + 1) % PATH_POINTS) = some p2 ∧
      (p2.1 - p1.1) * (p2.1 - p1.1) + (p2.2 - p1.2) * (p2.2 - p1.2) ≤
        env.winSize.1 * env.winSize.1 / 4 ∧
      c = DrawCmd.segment p1 p2
            (decide ((sample_azalt env sel obs i).2 > 0) ||
             decide ((sample_azalt env sel obs ((i + 1) % PATH_POINTS)).2 > 0)) := by
  rcases hw1 : sample_win env sel obs i with _ | q1
  · simp [segment_cmd, hw1] at h
  rcases hw2 : sample_win env sel obs ((i + 1) % PATH_POINTS) with _ | q2
  · simp [segment_cmd, hw1, hw2] at h
  by_cases hd : (q2.1 - q1.1) * (q2.1 - q1.1) + (q2.2 - q1.2) * (q2.2 - q1.2) >
      env.winSize.1 * env.winSize.1 / 4
  · simp [segment_cmd, hw1, hw2, hd] at h
  · simp [segment_cmd, hw1, hw2, hd] at h
    exact ⟨q1, q2, rfl, rfl, not_lt.mp hd, h.symm⟩

theorem dot_cmds_mem_inv {Obj : Type} (env : Env Obj) (sel : Obj)
    (obs : Observer) (i : ℕ) (c : DrawCmd) (h : c ∈ dot_cmds env sel obs i) :
    ∃ w, sample_win env sel obs i = some w ∧
      code_is_hour (clock_hour i) = true ∧ in_viewport env w ∧
      (c = DrawCmd.dot w 3 ∨
        (Int.tmod (rounded_hour (clock_hour i)) 2 = 0 ∧
         c = DrawCmd.timeLabel w (rounded_hour (clock_hour i)))) := by
  by_cases hh : code_is_hour (clock_hour i) = true
  case neg => simp [dot_cmds, hh] at h
  rcases hw : sample_win env sel obs i with _ | w
  · simp [dot_cmds, hh, hw] at h
  by_cases hv : w.1 < 0 ∨ w.1 > env.winSize.1 ∨ w.2 < 0 ∨ w.2 > env.winSize.2
  · simp [dot_cmds, hh, hw, hv] at h
  refine ⟨w, rfl, hh, ?_, ?_⟩
  · push_neg at hv
    simpa [in_viewport] using hv
  by_cases he : Int.tmod (rounded_hour (clock_hour i)) 2 = 0
  · simp [dot_cmds, hh, hw, hv, he] at h
    rcases h with h | h
    · exact Or.inl h
    · exact Or.inr ⟨he, h⟩
  · simp [dot_cmds, hh, hw, hv, he] at h
    exact Or.inl h

theorem dot_cmds_pos {Obj : Type} (env : Env Obj) (sel : Obj)
    (obs : Observer) (i : ℕ) (w : ℚ × ℚ)
    (hw : sample_win env sel obs i = some w)
    (hh : code_is_hour (clock_hour i) = true) (hv : in_viewport env w) :
    DrawCmd.dot w 3 ∈ dot_cmds env sel obs i ∧
    (Int.tmod (rounded_hour (clock_hour i)) 2 = 0 →
      DrawCmd.timeLabel w (rounded_hour (clock_hour i)) ∈
        dot_cmds env sel obs i) := by
  simp only [in_viewport] at hv
  have hv' : ¬ (w.1 < 0 ∨ w.1 > env.winSize.1 ∨ w.2 < 0 ∨
      w.2 > env.winSize.2) := by
    push_neg
    exact ⟨hv.1, hv.2.1, hv.2.2.1, hv.2.2.2⟩
  constructor
  · simp [dot_cmds, hh, hw, hv']
  · intro he
    simp [dot_cmds, hh, hw, hv', he]

theorem marker_cmds_mem_inv {Obj : Type} (env : Env Obj) (sel : Obj)
    (obs : Observer) (c : DrawCmd) (h : c ∈ marker_cmds env sel obs) :
    ∃ p, env.projectToWin (env.currentView sel obs) = some p ∧
      c = DrawCmd.marker p := by
  rcases hp : env.projectToWin (env.currentView sel obs) with _ | p
  · simp [marker_cmds, hp] at h
  · simp [marker_cmds, hp] at h
    exact ⟨p, rfl, h⟩

/-! ### C2 -/

/-- C2: every screen position handed to a drawing primitive comes from a
successful `project_to_win` call — a segment needs both endpoint
projections, a dot or time label the projection of its own sample, and the
current-position marker the projection of the current view position. -/
theorem c2_no_failed_projection_drawn {Obj : Type} (env : Env Obj)
    (t : StarTrack) (sel : Option Obj) (obs : Observer) :
    (∀ p1 p2 ab,
      DrawCmd.segment p1 p2 ab ∈ (star_track_render env t sel obs).2 →
        ∃ s, sel = some s ∧ ∃ i, i < PATH_POINTS ∧
          sample_win env s obs i = some p1 ∧
          sample_win env s obs ((i + 1) % PATH_POINTS) = some p2) ∧
    (∀ p r, DrawCmd.dot p r ∈ (star_track_render env t sel obs).2 →
        ∃ s, sel = some s ∧ ∃ i, i < PATH_POINTS ∧
          sample_win env s obs i = some p) ∧
    (∀ p hr, DrawCmd.timeLabel p hr ∈ (star_track_render env t sel obs).2 →
        ∃ s, sel = some s ∧ ∃ i, i < PATH_POINTS ∧
          sample_win env s obs i = some p) ∧
    (∀ p, DrawCmd.marker p ∈ (star_track_render env t sel obs).2 →
        ∃ s, sel = some s ∧
          env.projectToWin (env.currentView s obs) = some p) := by
  by_cases ht : t.visible = true
  case neg =>
    rw [render_not_visible env t sel obs (by simpa using ht)]
    simp
  rcases sel with _ | s
  · rw [render_no_selection]
    simp
  refine ⟨?_, ?_, ?_, ?_⟩
  · intro p1 p2 ab h
    rw [render_cmds_eq env t s obs ht] at h
    rcases List.mem_append.mp h with h | h
    rcases List.mem_append.mp h with h | h
    · rcases List.mem_filterMap.mp h with ⟨i, hi, hc⟩
      rcases segment_cmd_some_inv env s obs i _ hc with ⟨q1, q2, h1, h2, _, hcc⟩
      simp only [DrawCmd.segment.injEq] at hcc
      refine ⟨s, rfl, i, List.mem_range.mp hi, ?_, ?_⟩
      · rw [hcc.1]; exact h1
      · rw [hcc.2.1]; exact h2
    · rcases List.mem_flatMap.mp h with ⟨i, _, hc⟩
      rcases dot_cmds_mem_inv env s obs i _ hc with ⟨w, _, _, _, hcc | hcc⟩
      · simp at hcc
      · exact absurd hcc.2 (by simp)
    · rcases marker_cmds_mem_inv env s obs _ h with ⟨p, _, hcc⟩
      simp at hcc
  · intro p r h
    rw [render_cmds_eq env t s obs ht] at h
    rcases List.mem_append.mp h with h | h
    rcases List.mem_append.mp h with h | h
    · rcases List.mem_filterMap.mp h with ⟨i, hi, hc⟩
      rcases segment_cmd_some_inv env s obs i _ hc with ⟨q1, q2, _, _, _, hcc⟩
      simp at hcc
    · rcases List.mem_flatMap.mp h with ⟨i, hi, hc⟩
      rcases dot_cmds_mem_inv env s obs i _ hc with ⟨w, hw, _, _, hcc | hcc⟩
      · simp only [DrawCmd.dot.injEq] at hcc
        refine ⟨s, rfl, i, List.mem_range.mp hi, ?_⟩
        rw [hcc.1]; exact hw
      · exact absurd hcc.2 (by simp)
    · rcases marker_cmds_mem_inv env s obs _ h with ⟨p, _, hcc⟩
      simp at hcc
  · intro p hr h
    rw [render_cmds_eq env t s obs ht] at h
    rcases List.mem_append.mp h with h | h
    rcases List.mem_append.mp h with h | h
    · rcases List.mem_filterMap.mp h with ⟨i, hi, hc⟩
      rcases segment_cmd_some_inv env s obs i _ hc with ⟨q1, q2, _, _, _, hcc⟩
      simp at hcc
    · rcases List.mem_flatMap.mp h with ⟨i, hi, hc⟩
      rcases dot_cmds_mem_inv env s obs i _ hc with ⟨w, hw, _, _, hcc | hcc⟩
      · simp at hcc
      · have hcc2 := hcc.2
        simp only [DrawCmd.timeLabel.injEq] at hcc2
        refine ⟨s, rfl, i, List.mem_range.mp hi, ?_⟩
        rw [hcc2.1]; exact hw
    · rcases marker_cmds_mem_inv env s obs _ h with ⟨p, _, hcc⟩
      simp at hcc
  · intro p h
    rw [render_cmds_eq env t s obs ht] at h
    rcases List.mem_append.mp h with h | h
    rcases List.mem_append.mp h with h | h
    · rcases List.mem_filterMap.mp h with ⟨i, hi, hc⟩
      rcases segment_cmd_some_inv env s obs i _ hc with ⟨q1, q2, _, _, _, hcc⟩
      simp at hcc
    · rcases List.mem_flatMap.mp h with ⟨i, hi, hc⟩
      rcases dot_cmds_mem_inv env s obs i _ hc with ⟨w, _, _, _, hcc | hcc⟩
      · simp at hcc
      · exact absurd hcc.2 (by simp)
    · rcases marker_cmds_mem_inv env s obs _ h with ⟨q, hq, hcc⟩
      have hpq : p = q := by simpa using hcc
      exact ⟨s, rfl, hpq ▸ hq⟩

/-- Witness for C2: a concrete marker drawn by `env0` whose projection is
recovered by the theorem. -/
theorem c2_no_failed_projection_drawn_witness :
    ∃ s, (some 0 : Option ℕ) = some s ∧
      env0.projectToWin (env0.currentView s obs0) = some (0, 0) :=
  (c2_no_failed_projection_drawn env0 track0 (some 0) obs0).2.2.2 (0, 0)
    (by with_unfolding_all decide)

theorem segment_cmd_pos {Obj : Type} (env : Env Obj) (sel : Obj)
    (obs : Observer) (i : ℕ) (p1 p2 : ℚ × ℚ)
    (h1 : sample_win env sel obs i = some p1)
    (h2 : sample_win env sel obs ((i + 1) % PATH_POINTS) = some p2)
    (hd : ¬ ((p2.1 - p1.1) * (p2.1 - p1.1) + (p2.2 - p1.2) * (p2.2 - p1.2) >
        env.winSize.1 * env.winSize.1 / 4)) :
    segment_cmd env sel obs i = some (DrawCmd.segment p1 p2
      (decide ((sample_azalt env sel obs i).2 > 0) ||
       decide ((sample_azalt env sel obs ((i + 1) % PATH_POINTS)).2 > 0))) := by
  simp [segment_cmd, h1, h2, hd]

/-! ### C3 -/

/-- C3: a segment between two successfully projected adjacent samples is
emitted iff the squared screen distance is at most `(winWidth/2)^2`; any
emitted segment's endpoints differ by at most half the viewport width on
each axis. -/
theorem c3_wraparound_rejection {Obj : Type} (env : Env Obj) (t : StarTrack)
    (sel : Option Obj) (obs : Observer) :
    (∀ p1 p2 ab,
      DrawCmd.segment p1 p2 ab ∈ (star_track_render env t sel obs).2 →
        (p2.1 - p1.1) ^ 2 + (p2.2 - p1.2) ^ 2 ≤ (env.winSize.1 / 2) ^ 2 ∧
        (0 ≤ env.winSize.1 →
          |p2.1 - p1.1| ≤ env.winSize.1 / 2 ∧
          |p2.2 - p1.2| ≤ env.winSize.1 / 2)) ∧
    (∀ s, sel = some s → t.visible = true →
      ∀ i, i < PATH_POINTS → ∀ p1 p2,
        sample_win env s obs i = some p1 →
        sample_win env s obs ((i + 1) % PATH_POINTS) = some p2 →
        (p2.1 - p1.1) ^ 2 + (p2.2 - p1.2) ^ 2 ≤ (env.winSize.1 / 2) ^ 2 →
        DrawCmd.segment p1 p2
            (decide ((sample_azalt env s obs i).2 > 0) ||
             decide ((sample_azalt env s obs ((i + 1) % PATH_POINTS)).2 > 0)) ∈
          (star_track_render env t sel obs).2) := by
  constructor
  · intro p1 p2 ab h
    by_cases ht : t.visible = true
    case neg =>
      rw [render_not_visible env t sel obs (by simpa using ht)] at h
      simp at h
    rcases sel with _ | s
    · rw [render_no_selection] at h
      simp at h
    rw [render_cmds_eq env t s obs ht] at h
    have hb : (p2.1 - p1.1) * (p2.1 - p1.1) + (p2.2 - p1.2) * (p2.2 - p1.2) ≤
        env.winSize.1 * env.winSize.1 / 4 := by
      rcases List.mem_append.mp h with h | h
      rcases List.mem_append.mp h with h | h
      · rcases List.mem_filterMap.mp h with ⟨i, hi, hc⟩
        rcases segment_cmd_some_inv env s obs i _ hc with
          ⟨q1, q2, _, _, hd, hcc⟩
        simp only [DrawCmd.segment.injEq] at hcc
        rw [hcc.1, hcc.2.1]
        exact hd
      · rcases List.mem_flatMap.mp h with ⟨i, _, hc⟩
        rcases dot_cmds_mem_inv env s obs i _ hc with ⟨w, _, _, _, hcc | hcc⟩
        · simp at hcc
        · exact absurd hcc.2 (by simp)
      · rcases marker_cmds_mem_inv env s obs _ h with ⟨p, _, hcc⟩
        simp at hcc
    have hsq : (p2.1 - p1.1) ^ 2 + (p2.2 - p1.2) ^ 2 ≤
        (env.winSize.1 / 2) ^ 2 := by
      calc (p2.1 - p1.1) ^ 2 + (p2.2 - p1.2) ^ 2
          = (p2.1 - p1.1) * (p2.1 - p1.1) + (p2.2 - p1.2) * (p2.2 - p1.2) := by
            ring
        _ ≤ env.winSize.1 * env.winSize.1 / 4 := hb
        _ = (env.winSize.1 / 2) ^ 2 := by ring
    refine ⟨hsq, fun hw => ⟨?_, ?_⟩⟩
    · nlinarith [abs_mul_abs_self (p2.1 - p1.1), abs_nonneg (p2.1 - p1.1),
        mul_self_nonneg (p2.2 - p1.2)]
    · nlinarith [abs_mul_abs_self (p2.2 - p1.2), abs_nonneg (p2.2 - p1.2),
        mul_self_nonneg (p2.1 - p1.1)]
  · rintro s rfl ht i hi p1 p2 h1 h2 hd
    rw [render_cmds_eq env t s obs ht]
    refine List.mem_append.mpr (Or.inl (List.mem_append.mpr (Or.inl ?_)))
    refine List.mem_filterMap.mpr ⟨i, List.mem_range.mpr hi, ?_⟩
    refine segment_cmd_pos env s obs i p1 p2 h1 h2 (not_lt.mpr ?_)
    calc (p2.1 - p1.1) * (p2.1 - p1.1) + (p2.2 - p1.2) * (p2.2 - p1.2)
        = (p2.1 - p1.1) ^ 2 + (p2.2 - p1.2) ^ 2 := by ring
      _ ≤ (env.winSize.1 / 2) ^ 2 := hd
      _ = env.winSize.1 * env.winSize.1 / 4 := by ring

/-- Witness for C3: the closing segment of the constant-direction path in
`env0` is emitted because its projected endpoints coincide. -/
theorem c3_wraparound_rejection_witness :
    DrawCmd.segment (0, 0) (0, 0)
        (decide ((sample_azalt env0 0 obs0 0).2 > 0) ||
         decide ((sample_azalt env0 0 obs0 ((0 + 1) % PATH_POINTS)).2 > 0)) ∈
      (star_track_render env0 track0 (some 0) obs0).2 :=
  (c3_wraparound_rejection env0 track0 (some 0) obs0).2 0 rfl rfl 0
    (by norm_num [PATH_POINTS]) (0, 0) (0, 0)
    (by with_unfolding_all decide) (by with_unfolding_all decide)
    (by norm_num [env0])

/-! ### C10 -/

/-- C10: hour dots and time labels are drawn only at projected positions
inside the whole viewport (inclusive bounds, no margin), and every emitted
time label sits at the position of an emitted hour dot. -/
theorem c10_dots_labels_in_viewport {Obj : Type} (env : Env Obj)
    (t : StarTrack) (sel : Option Obj) (obs : Observer) :
    (∀ p r, DrawCmd.dot p r ∈ (star_track_render env t sel obs).2 →
        0 ≤ p.1 ∧ p.1 ≤ env.winSize.1 ∧ 0 ≤ p.2 ∧ p.2 ≤ env.winSize.2) ∧
    (∀ p hr, DrawCmd.timeLabel p hr ∈ (star_track_render env t sel obs).2 →
        (0 ≤ p.1 ∧ p.1 ≤ env.winSize.1 ∧ 0 ≤ p.2 ∧ p.2 ≤ env.winSize.2) ∧
        DrawCmd.dot p 3 ∈ (star_track_render env t sel obs).2) := by
  by_cases ht : t.visible = true
  case neg =>
    rw [render_not_visible env t sel obs (by simpa using ht)]
    simp
  rcases sel with _ | s
  · rw [render_no_selection]
    simp
  constructor
  · intro p r h
    rw [render_cmds_eq env t s obs ht] at h
    rcases List.mem_append.mp h with h | h
    rcases List.mem_append.mp h with h | h
    · rcases List.mem_filterMap.mp h with ⟨i, hi, hc⟩
      rcases segment_cmd_some_inv env s obs i _ hc with ⟨q1, q2, _, _, _, hcc⟩
      simp at hcc
    · rcases List.mem_flatMap.mp h with ⟨i, hi, hc⟩
      rcases dot_cmds_mem_inv env s obs i _ hc with ⟨w, hw, _, hv, hcc | hcc⟩
      · simp only [DrawCmd.dot.injEq] at hcc
        rw [hcc.1]
        simpa [in_viewport] using hv
      · exact absurd hcc.2 (by simp)
    · rcases marker_cmds_mem_inv env s obs _ h with ⟨p, _, hcc⟩
      simp at hcc
  · intro p hr h
    rw [render_cmds_eq env t s obs ht] at h
    rcases List.mem_append.mp h with h | h
    rcases List.mem_append.mp h with h | h
    · rcases List.mem_filterMap.mp h with ⟨i, hi, hc⟩
      rcases segment_cmd_some_inv env s obs i _ hc with ⟨q1, q2, _, _, _, hcc⟩
      simp at hcc
    · rcases List.mem_flatMap.mp h with ⟨i, hi, hc⟩
      rcases dot_cmds_mem_inv env s obs i _ hc with ⟨w, hw, hh, hv, hcc | hcc⟩
      · simp at hcc
      · have hcc2 := hcc.2
        simp only [DrawCmd.timeLabel.injEq] at hcc2
        constructor
        · rw [hcc2.1]
          simpa [in_viewport] using hv
        · rw [render_cmds_eq env t s obs ht, hcc2.1]
          refine List.mem_append.mpr (Or.inl (List.mem_append.mpr (Or.inr ?_)))
          exact List.mem_flatMap.mpr ⟨i, hi, (dot_cmds_pos env s obs i w hw hh hv).1⟩
    · rcases marker_cmds_mem_inv env s obs _ h with ⟨p, _, hcc⟩
      simp at hcc

/-- Witness for C10: a concrete dot drawn by `env0` lies inside the
viewport. -/
theorem c10_dots_labels_in_viewport_witness :
    0 ≤ (0 : ℚ) ∧ (0 : ℚ) ≤ env0.winSize.1 ∧ 0 ≤ (0 : ℚ) ∧
      (0 : ℚ) ≤ env0.winSize.2 :=
  (c10_dots_labels_in_viewport env0 track0 (some 0) obs0).1 (0, 0) 3
    (by with_unfolding_all decide)

/-! ### C4 -/

theorem label_cond_equiv : ∀ i : ℕ, i < PATH_POINTS →
    ((code_is_hour (clock_hour i) = true ∧
      Int.tmod (rounded_hour (clock_hour i)) 2 = 0) ↔
      spec_label_cond (clock_hour i)) := by
  with_unfolding_all decide

/-- Counterexample to C4 as stated: with `envFail` every projection fails,
so sample 0 meets the claimed hour condition (clock-hour 0, integer and
even) yet the render emits no command at all — label emission is not
equivalent to the hour condition alone. -/
theorem c4_label_emission_counterexample :
    spec_label_cond (clock_hour 0) ∧
    (star_track_render envFail track0 (some 0) obs0).2 = [] := by
  constructor
  · with_unfolding_all decide
  · with_unfolding_all decide

/-- C4 amended: a time label is emitted for a cached sample iff the sample's
clock-hour is within ±6% of the sampling interval of an integer hour, the
rounded hour is even, and additionally the sample's projection succeeded
with a position inside the viewport. -/
theorem c4_label_emission {Obj : Type} (env : Env Obj) (t : StarTrack)
    (sel : Obj) (obs : Observer) (ht : t.visible = true) :
    (∀ p hr,
      DrawCmd.timeLabel p hr ∈ (star_track_render env t (some sel) obs).2 →
        ∃ i, i < PATH_POINTS ∧ spec_label_cond (clock_hour i) ∧
          hr = rounded_hour (clock_hour i) ∧
          sample_win env sel obs i = some p ∧ in_viewport env p) ∧
    (∀ i, i < PATH_POINTS → spec_label_cond (clock_hour i) →
      ∀ p, sample_win env sel obs i = some p → in_viewport env p →
        DrawCmd.timeLabel p (rounded_hour (clock_hour i)) ∈
          (star_track_render env t (some sel) obs).2) := by
  constructor
  · intro p hr h
    rw [render_cmds_eq env t sel obs ht] at h
    rcases List.mem_append.mp h with h | h
    rcases List.mem_append.mp h with h | h
    · rcases List.mem_filterMap.mp h with ⟨i, hi, hc⟩
      rcases segment_cmd_some_inv env sel obs i _ hc with ⟨q1, q2, _, _, _, hcc⟩
      simp at hcc
    · rcases List.mem_flatMap.mp h with ⟨i, hi, hc⟩
      rcases dot_cmds_mem_inv env sel obs i _ hc with ⟨w, hw, hh, hv, hcc | hcc⟩
      · simp at hcc
      · have hcc2 := hcc.2
        simp only [DrawCmd.timeLabel.injEq] at hcc2
        refine ⟨i, List.mem_range.mp hi,
          (label_cond_equiv i (List.mem_range.mp hi)).mp ⟨hh, hcc.1⟩,
          hcc2.2, ?_, ?_⟩
        · rw [hcc2.1]; exact hw
        · rw [hcc2.1]; exact hv
    · rcases marker_cmds_mem_inv env sel obs _ h with ⟨q, _, hcc⟩
      simp at hcc
  · intro i hi hcond p hw hv
    have hcode := (label_cond_equiv i hi).mpr hcond
    rw [render_cmds_eq env t sel obs ht]
    refine List.mem_append.mpr (Or.inl (List.mem_append.mpr (Or.inr ?_)))
    exact List.mem_flatMap.mpr ⟨i, List.mem_range.mpr hi,
      (dot_cmds_pos env sel obs i p hw hcode.1 hv).2 hcode.2⟩

/-- Witness for C4 amended: sample 0 of `env0` projects on-screen and its
even-hour label is emitted. -/
theorem c4_label_emission_witness :
    DrawCmd.timeLabel (0, 0) (rounded_hour (clock_hour 0)) ∈
      (star_track_render env0 track0 (some 0) obs0).2 :=
  (c4_label_emission env0 track0 0 obs0 rfl).2 0 (by norm_num [PATH_POINTS])
    (by with_unfolding_all decide) (0, 0) (by with_unfolding_all decide)
    (by with_unfolding_all decide)

/-! ### C5 -/

/-- The tracker state after one render with tracking enabled, then the
visible flag cleared by the host. -/
def c5_state_disabled : StarTrack :=
  { (star_track_render env0 track0 (some 0) obs0).1 with visible := false }

/-- Counterexample to C5 as stated: after disabling tracking the cached
sample storage is still allocated (PATH_POINTS samples, neither array
freed), and a further render — even naming a different object — leaves it in
place; nothing in the code frees the cache on disable or object change. -/
theorem c5_cache_lifecycle_counterexample :
    c5_state_disabled.visible = false ∧
    c5_state_disabled.cache.nb_points = PATH_POINTS ∧
    c5_state_disabled.cache.path_azalt ≠ none ∧
    c5_state_disabled.cache.hours ≠ none ∧
    (star_track_render env0 c5_state_disabled (some 1) obs0).1 =
      c5_state_disabled := by
  refine ⟨rfl, ?_, ?_, ?_, ?_⟩ <;> with_unfolding_all decide

/-- C5 amended: the cache storage is freed only by `star_track_del` (module
deletion); with tracking disabled the render is a no-op that leaves the
cached samples allocated, and any later refresh (for whatever object)
reuses the PATH_POINTS-sample storage instead of destroying it. -/
theorem c5_cache_lifecycle {Obj : Type} (env : Env Obj) (t : StarTrack)
    (sel : Option Obj) (obs : Observer) :
    ((star_track_del t).cache.path_azalt = none ∧
     (star_track_del t).cache.hours = none) ∧
    (t.visible = false → star_track_render env t sel obs = (t, [])) ∧
    (∀ sel2 obs2,
      (update_path_cache env t sel2 obs2).cache.path_azalt ≠ none ∧
      (update_path_cache env t sel2 obs2).cache.hours ≠ none ∧
      (update_path_cache env t sel2 obs2).cache.nb_points = PATH_POINTS) := by
  refine ⟨⟨rfl, rfl⟩, fun h => render_not_visible env t sel obs h, ?_⟩
  intro sel2 obs2
  exact ⟨by simp [update_path_cache], by simp [update_path_cache], rfl⟩

/-- Witness for C5 amended: rendering the concrete disabled state is a
no-op. -/
theorem c5_cache_lifecycle_witness :
    star_track_render env0 c5_state_disabled (some 0) obs0 =
      (c5_state_disabled, []) :=
  (c5_cache_lifecycle env0 c5_state_disabled (some 0) obs0).2.1 rfl

end Stellarium
